import Mathlib

/-!
Verification model of `src/utils/fetch-loader.ts` (hls.js FetchLoader).

The loader issues one fetch, arms a one-shot timeout timer, and settles
through a promise chain `fetch(request).then(h1).then(h2).catch(h3)`.
We embed the loader as a state machine: the environment supplies events
(transport settlement, body settlement, progress chunks, timer expiry,
caller abort/destroy) and `step` runs the corresponding handler from the
source atomically, since a promise handler runs to completion on the JS
event loop.  Scheduling facts of the platform are encoded as guards on
the events and are noted where they occur.
-/

namespace FetchLoaderModel

/-- A received HTTP response as the loader observes it: `ok`, `status`,
`statusText`, `url`, and the response headers as name/value pairs. -/
structure Response where
  ok : Bool
  status : Nat
  statusText : String
  url : String
  headers : List (String × String)
deriving DecidableEq, Repr

/-- The stats record mutated by the loader, with the field names used by
`fetch-loader.ts`: `trequest`/`tfirst`/`tload` timestamps, `loaded`/`total`
byte counters and the `aborted` flag. -/
structure LoadStats where
  aborted : Bool
  trequest : Nat
  tfirst : Nat
  tload : Nat
  loaded : Nat
  total : Nat
deriving DecidableEq, Repr

/-- Modelled from the spec: the `LoadStats` construction (class
`LoadStats` of `loader/load-stats`, not present under `src/`) starts with
`aborted: bool (default false)` and all byte counters at zero;
`fetch-loader.ts` then assigns `trequest = performance.now()` at the start
of `load`, which we take as the parameter `t0`. -/
def LoadStats.init (t0 : Nat) : LoadStats :=
  { aborted := false, trequest := t0, tfirst := 0, tload := 0, loaded := 0, total := 0 }

/-- Header lookup, the behaviour of `Headers.get` of the fetch standard
for a valid header name (`null` for an absent header).  The platform
compares names case-insensitively; we carry headers under their canonical
spelling and look them up by exact name, which no claim distinguishes. -/
def headerGet (hs : List (String × String)) (name : String) : Option String :=
  (hs.find? (fun p => p.1 == name)).map Prod.snd

/-- `Headers.get` including its failure mode: the platform throws a
`TypeError` for an invalid header name (modelled: the empty name), which
is what the `try`/`catch` in `getResponseHeader` guards against. -/
def headersGetE (hs : List (String × String)) (name : String) :
    Except String (Option String) :=
  if name = "" then Except.error "TypeError: invalid header name"
  else Except.ok (headerGet hs name)

/-- JS `parseInt` restricted to the loader's use
`parseInt(headers.get('Content-Length') || '0')`: leading decimal digits,
or 0 when there are none (`null`/`''` are falsy and replaced by `'0'`;
a header with no leading digit gives `NaN`, which we collapse to 0 —
no claim depends on a malformed `Content-Length`). -/
def jsParseIntNat (s : String) : Nat :=
  (s.data.takeWhile Char.isDigit).foldl (fun acc c => acc * 10 + (c.toNat - 48)) 0

/-- `parseInt(response.headers.get('Content-Length') || '0')` from `load`. -/
def contentLengthOf (r : Response) : Nat :=
  match headerGet r.headers "Content-Length" with
  | some v => jsParseIntNat v
  | none => 0

/-- The callback invocations the loader can emit, in order, per load. -/
inductive Emit
  | onSuccess (url : String) (len : Nat)
  | onError (code : Option Nat) (text : String)
  | onTimeout
  | onAbort
  | onProgress (loaded : Nat)
deriving DecidableEq, Repr

/-- Where the promise chain of one load stands: the fetch is in flight,
the ok-response handler has run and the body is being consumed, or the
chain has finished (a terminal handler ran, possibly swallowing). -/
inductive Phase
  | pending
  | body
  | consumed
deriving DecidableEq, Repr

/-- Loader state during one `load`: the stats record, the chain phase,
whether the timeout timer is armed, whether `controller.abort()` has been
called, `this.response`, and the log of callback invocations so far. -/
structure LState where
  stats : LoadStats
  phase : Phase
  timerArmed : Bool
  controllerAborted : Bool
  response : Option Response
  log : List Emit
deriving DecidableEq, Repr

/-- Environment events driving one load.  `resolve` is the fetch promise
resolving with a response (running handler `h1`); `rejectT` is the fetch
promise rejecting (network failure or abort-induced `AbortError`);
`bodyDone` is the `text()`/`arrayBuffer()` promise resolving with a
payload of the given length; `bodyFail` is that promise rejecting;
`chunk` is a progress-pump read; `timeout` is the timer expiring;
`abortCall`/`destroyCall` are the caller invoking `abort()`/`destroy()`. -/
inductive Event
  | resolve (r : Response) (now : Nat)
  | rejectT (code : Option Nat) (msg : String)
  | bodyDone (len : Nat) (now : Nat)
  | bodyFail (code : Option Nat) (msg : String)
  | chunk (len : Nat)
  | timeout
  | abortCall
  | destroyCall
deriving DecidableEq, Repr

/-- `abortInternal`: `this.stats.aborted = true; this.controller.abort();`. -/
def abortInternal (s : LState) : LState :=
  { s with stats := { s.stats with aborted := true }, controllerAborted := true }

/-- The `.catch` handler: `clearTimeout(this.requestTimeout); if
(stats.aborted) return; callbacks.onError({code, text}, ...)`.  The chain
is finished afterwards in either case. -/
def catchHandler (s : LState) (code : Option Nat) (msg : String) : LState :=
  let s1 : LState := { s with timerArmed := false, phase := Phase.consumed }
  if s1.stats.aborted then s1
  else { s1 with log := s1.log ++ [Emit.onError code msg] }

/-- The first `.then` handler: stores `this.response`; a non-ok status
throws `FetchError(statusText || 'fetch, bad network response', status)`
which lands in `.catch`; an ok status records
`tfirst = max(now, trequest)` and `total = parseInt(Content-Length || 0)`
and hands the body to the decoder. -/
def resolveHandler (s : LState) (r : Response) (now : Nat) : LState :=
  let s1 : LState := { s with response := some r }
  if r.ok then
    { s1 with
      stats := { s1.stats with
        tfirst := max now s1.stats.trequest,
        total := contentLengthOf r },
      phase := Phase.body }
  else
    catchHandler s1 (some r.status)
      (if r.statusText = "" then "fetch, bad network response" else r.statusText)

/-- The second `.then` handler (decode finished): clears the timer, sets
`tload = max(now, tfirst)`, `loaded = total = responseData[LENGTH]`, and
invokes `onSuccess({url: response.url, data}, ...)`. -/
def successHandler (s : LState) (len : Nat) (now : Nat) : LState :=
  let url := match s.response with
    | some r => r.url
    | none => ""
  { s with
    timerArmed := false,
    phase := Phase.consumed,
    stats := { s.stats with tload := max now s.stats.tfirst, loaded := len, total := len },
    log := s.log ++ [Emit.onSuccess url len] }

/-- The timeout handler passed to `setTimeout`: `this.abortInternal();
callbacks.onTimeout(stats, context, this.response);`.  Firing spends the
one-shot timer. -/
def timeoutHandler (s : LState) : LState :=
  let s1 := abortInternal { s with timerArmed := false }
  { s1 with log := s1.log ++ [Emit.onTimeout] }

/-- `abort()`: `abortInternal()` then `onAbort(...)` when the caller
registered it (`ha`). -/
def abortHandler (ha : Bool) (s : LState) : LState :=
  let s1 := abortInternal s
  if ha then { s1 with log := s1.log ++ [Emit.onAbort] } else s1

/-- One environment event applied to the loader state.  `hp`/`ha` say
whether `onProgress`/`onAbort` are registered.  Guards encode platform
scheduling: a fetch whose controller is aborted settles by rejection,
never by resolution, and the pending rejection is a microtask delivered
before any timer macrotask, so `timeout` cannot run while
`controllerAborted` holds with the chain unfinished; an event whose guard
fails leaves the state unchanged (it cannot occur). -/
def step (hp ha : Bool) (s : LState) : Event → LState
  | Event.resolve r now =>
    if s.phase = Phase.pending ∧ s.controllerAborted = false then resolveHandler s r now else s
  | Event.rejectT code msg =>
    if s.phase = Phase.pending then catchHandler s code msg else s
  | Event.bodyDone len now =>
    if s.phase = Phase.body ∧ s.controllerAborted = false then successHandler s len now else s
  | Event.bodyFail code msg =>
    if s.phase = Phase.body then catchHandler s code msg else s
  | Event.chunk len =>
    if s.phase = Phase.body ∧ s.controllerAborted = false ∧ hp = true then
      { s with
        stats := { s.stats with loaded := s.stats.loaded + len },
        log := s.log ++ [Emit.onProgress (s.stats.loaded + len)] }
    else s
  | Event.timeout =>
    if s.timerArmed = true ∧ s.controllerAborted = false then timeoutHandler s else s
  | Event.abortCall => abortHandler ha s
  | Event.destroyCall => abortInternal s

/-- State at the start of `load`: fresh stats with `trequest = t0`, fetch
in flight, timer armed, controller live, no response seen, no callback
invoked. -/
def initState (t0 : Nat) : LState :=
  { stats := LoadStats.init t0, phase := Phase.pending, timerArmed := true,
    controllerAborted := false, response := none, log := [] }

/-- A whole load: fold the events of a schedule over the initial state. -/
def run (hp ha : Bool) (t0 : Nat) (sched : List Event) : LState :=
  sched.foldl (step hp ha) (initState t0)

/-- Terminal-family callbacks: `onSuccess`, `onError`, `onTimeout`. -/
def isTerminal : Emit → Bool
  | Emit.onSuccess _ _ => true
  | Emit.onError _ _ => true
  | Emit.onTimeout => true
  | _ => false

/-- Notifications: the terminal family plus `onAbort`. -/
def isNotif : Emit → Bool
  | Emit.onProgress _ => false
  | _ => true

def isError : Emit → Bool
  | Emit.onError _ _ => true
  | _ => false

def isSuccess : Emit → Bool
  | Emit.onSuccess _ _ => true
  | _ => false

def isTimeoutEmit : Emit → Bool
  | Emit.onTimeout => true
  | _ => false

def countTerminal (l : List Emit) : Nat := l.countP isTerminal
def countNotif (l : List Emit) : Nat := l.countP isNotif
def countError (l : List Emit) : Nat := l.countP isError
def countSuccess (l : List Emit) : Nat := l.countP isSuccess
def countTimeout (l : List Emit) : Nat := l.countP isTimeoutEmit

/-- A load has settled once some notification has been delivered. -/
def settledLog (l : List Emit) : Bool := l.any isNotif

/-- `getResponseHeader(name)`: `null` before any response; otherwise
`this.response.headers.get(name)` with the platform throw swallowed by
`try`/`catch` into `null`. -/
def getResponseHeader (s : LState) (name : String) : Option String :=
  match s.response with
  | some r =>
    match headersGetE r.headers name with
    | Except.ok v => v
    | Except.error _ => none
  | none => none

/-- The load request description consumed by `getRequestParameters`. -/
structure LoaderContext where
  url : String
  rangeStart : Option Nat
  rangeEnd : Option Nat
  responseType : String
deriving DecidableEq, Repr

/-- The request-init object built by `getRequestParameters`; `signal` is
the identity of the attached cancellation signal, `headers` the optional
`Headers` payload. -/
structure InitParams where
  method : String
  mode : String
  credentials : String
  signal : Nat
  headers : Option (List (String × String))
deriving DecidableEq, Repr

/-- JS string conversion of a possibly-absent number, as in
`'bytes=' + context.rangeStart`: `undefined` prints as "undefined". -/
def jsStrOptNat : Option Nat → String
  | some n => toString n
  | none => "undefined"

/-- `getRequestParameters(context, signal)`: always `method: 'GET'`,
`mode: 'cors'`, `credentials: 'same-origin'`, the signal attached; a
`Range` header `bytes=<rangeStart>-<rangeEnd-1>` is added iff
`context.rangeEnd` is truthy (present and nonzero). -/
def getRequestParameters (context : LoaderContext) (signal : Nat) : InitParams :=
  let initParams : InitParams :=
    { method := "GET", mode := "cors", credentials := "same-origin",
      signal := signal, headers := none }
  match context.rangeEnd with
  | some n =>
    if n ≠ 0 then
      { initParams with
        headers := some [("Range",
          "bytes=" ++ jsStrOptNat context.rangeStart ++ "-" ++ toString (n - 1))] }
    else initParams
  | none => initParams

end FetchLoaderModel

namespace FetchLoaderModel

/-- A sample ok response used by concrete witnesses. -/
def okResp : Response :=
  { ok := true, status := 200, statusText := "OK", url := "https://x/seg.ts",
    headers := [("Content-Length", "5")] }

/-- A sample 404 response used by concrete witnesses. -/
def notFoundResp : Response :=
  { ok := false, status := 404, statusText := "Not Found", url := "https://x/seg.ts",
    headers := [] }

/-- C3: for a context with `rangeEnd` present and `rangeStart < rangeEnd`,
`getRequestParameters` deterministically yields method GET, the given
cancellation signal attached, and a `Range` header exactly
`bytes=<rangeStart>-<rangeEnd-1>`; with `rangeEnd` absent no Range header
is added. -/
theorem range_header_built_exactly (url rt : String) (rs re sig : Nat) (h : rs < re) :
    (getRequestParameters ⟨url, some rs, some re, rt⟩ sig).method = "GET" ∧
    (getRequestParameters ⟨url, some rs, some re, rt⟩ sig).signal = sig ∧
    (getRequestParameters ⟨url, some rs, some re, rt⟩ sig).headers =
      some [("Range", "bytes=" ++ toString rs ++ "-" ++ toString (re - 1))] ∧
    (∀ rs0 : Option Nat,
      (getRequestParameters ⟨url, rs0, none, rt⟩ sig).headers = none) := by
  have hne : re ≠ 0 := by omega
  refine ⟨?_, ?_, ?_, ?_⟩ <;> simp [getRequestParameters, jsStrOptNat, hne]

theorem range_header_built_exactly_witness :
    (getRequestParameters ⟨"https://x/seg.ts", some 100, some 200, "text"⟩ 7).method = "GET" ∧
    (getRequestParameters ⟨"https://x/seg.ts", some 100, some 200, "text"⟩ 7).signal = 7 ∧
    (getRequestParameters ⟨"https://x/seg.ts", some 100, some 200, "text"⟩ 7).headers =
      some [("Range", "bytes=" ++ toString 100 ++ "-" ++ toString (200 - 1))] ∧
    (getRequestParameters ⟨"https://x/seg.ts", none, none, "text"⟩ 7).headers = none := by
  have h := range_header_built_exactly "https://x/seg.ts" "text" 100 200 7 (by decide)
  exact ⟨h.1, h.2.1, h.2.2.1, h.2.2.2 none⟩

/-- C10: a present-but-zero `rangeEnd` is falsy in the source's
`if (context.rangeEnd)` test, so no Range header is added for any
`rangeStart` and the request stays an unranged GET. -/
theorem rangeEnd_zero_no_range_header (url rt : String) (rs : Option Nat) (sig : Nat) :
    (getRequestParameters ⟨url, rs, some 0, rt⟩ sig).headers = none ∧
    (getRequestParameters ⟨url, rs, some 0, rt⟩ sig).method = "GET" := by
  constructor <;> rfl

/-- C9: `getResponseHeader` returns the named header of the last received
response, `null` when no response has been received or the header lookup
fails (the platform throw is swallowed); being a total Lean function into
`Option String`, it never throws for any name and state. -/
theorem getResponseHeader_total_spec (s : LState) (name : String) (r : Response)
    (v : Option String) :
    (s.response = none → getResponseHeader s name = none) ∧
    (s.response = some r → headersGetE r.headers name = Except.ok v →
      getResponseHeader s name = v) ∧
    (s.response = some r → ∀ e, headersGetE r.headers name = Except.error e →
      getResponseHeader s name = none) := by
  refine ⟨fun h0 => ?_, fun h1 h2 => ?_, fun h1 e h2 => ?_⟩ <;>
    simp [getResponseHeader, *]

theorem getResponseHeader_total_spec_witness :
    getResponseHeader (initState 0) "Content-Length" = none ∧
    getResponseHeader { initState 0 with response := some okResp } "Content-Length"
      = some "5" ∧
    getResponseHeader { initState 0 with response := some okResp } "" = none := by
  refine ⟨(getResponseHeader_total_spec (initState 0) "Content-Length" okResp none).1 rfl,
    (getResponseHeader_total_spec { initState 0 with response := some okResp }
      "Content-Length" okResp (some "5")).2.1 rfl rfl,
    (getResponseHeader_total_spec { initState 0 with response := some okResp }
      "" okResp none).2.2 rfl "TypeError: invalid header name" rfl⟩

/-- A mid-load state (ok response received, body streaming, a prior
Content-Length-derived total of 999) used by concrete witnesses. -/
def sampleBodyState : LState :=
  { stats := { aborted := false, trequest := 0, tfirst := 3, tload := 0,
               loaded := 2, total := 999 },
    phase := Phase.body, timerArmed := true, controllerAborted := false,
    response := some okResp, log := [] }

/-- C4: when the decode promise resolves with a payload of length `len`,
the success handler assigns `stats.loaded = stats.total = len` (whatever
total was previously inferred from Content-Length) and invokes
`onSuccess` with the response url and that payload. -/
theorem success_sets_loaded_eq_total (hp ha : Bool) (s : LState) (r : Response)
    (len now : Nat) (hph : s.phase = Phase.body) (hc : s.controllerAborted = false)
    (hr : s.response = some r) :
    (step hp ha s (Event.bodyDone len now)).stats.loaded = len ∧
    (step hp ha s (Event.bodyDone len now)).stats.total = len ∧
    (step hp ha s (Event.bodyDone len now)).stats.loaded
      = (step hp ha s (Event.bodyDone len now)).stats.total ∧
    (step hp ha s (Event.bodyDone len now)).log = s.log ++ [Emit.onSuccess r.url len] := by
  simp [step, hph, hc, successHandler, hr]

theorem success_sets_loaded_eq_total_witness :
    (step false true sampleBodyState (Event.bodyDone 5 4)).stats.loaded = 5 ∧
    (step false true sampleBodyState (Event.bodyDone 5 4)).stats.total = 5 ∧
    (step false true sampleBodyState (Event.bodyDone 5 4)).stats.loaded
      = (step false true sampleBodyState (Event.bodyDone 5 4)).stats.total ∧
    (step false true sampleBodyState (Event.bodyDone 5 4)).log
      = sampleBodyState.log ++ [Emit.onSuccess okResp.url 5] :=
  success_sets_loaded_eq_total false true sampleBodyState okResp 5 4 rfl rfl rfl

/-- C5: the first-byte and completion timestamps are clamped,
`tfirst = max(now, trequest)` and `tload = max(now, tfirst)`, so
`tfirst ≥ trequest` and `tload ≥ tfirst` hold for the settled load even
when the later clock reading is smaller than the earlier one. -/
theorem timestamps_monotone (hp ha : Bool) (s : LState) (r : Response)
    (now len now2 : Nat) (hph : s.phase = Phase.pending)
    (hc : s.controllerAborted = false) (hok : r.ok = true) :
    (step hp ha s (Event.resolve r now)).stats.tfirst = max now s.stats.trequest ∧
    s.stats.trequest ≤ (step hp ha s (Event.resolve r now)).stats.tfirst ∧
    (step hp ha (step hp ha s (Event.resolve r now)) (Event.bodyDone len now2)).stats.tload
      = max now2 (step hp ha s (Event.resolve r now)).stats.tfirst ∧
    (step hp ha (step hp ha s (Event.resolve r now)) (Event.bodyDone len now2)).stats.tfirst
      ≤ (step hp ha (step hp ha s (Event.resolve r now))
          (Event.bodyDone len now2)).stats.tload ∧
    (step hp ha (step hp ha s (Event.resolve r now))
        (Event.bodyDone len now2)).stats.trequest
      ≤ (step hp ha (step hp ha s (Event.resolve r now))
          (Event.bodyDone len now2)).stats.tfirst := by
  simp [step, hph, hc, resolveHandler, hok, successHandler]

theorem timestamps_monotone_witness :
    (step false true (initState 10) (Event.resolve okResp 7)).stats.tfirst
      = max 7 (initState 10).stats.trequest ∧
    (initState 10).stats.trequest
      ≤ (step false true (initState 10) (Event.resolve okResp 7)).stats.tfirst ∧
    (step false true (step false true (initState 10) (Event.resolve okResp 7))
        (Event.bodyDone 5 3)).stats.tload
      = max 3 (step false true (initState 10) (Event.resolve okResp 7)).stats.tfirst ∧
    (step false true (step false true (initState 10) (Event.resolve okResp 7))
        (Event.bodyDone 5 3)).stats.tfirst
      ≤ (step false true (step false true (initState 10) (Event.resolve okResp 7))
          (Event.bodyDone 5 3)).stats.tload ∧
    (step false true (step false true (initState 10) (Event.resolve okResp 7))
        (Event.bodyDone 5 3)).stats.trequest
      ≤ (step false true (step false true (initState 10) (Event.resolve okResp 7))
          (Event.bodyDone 5 3)).stats.tfirst :=
  timestamps_monotone false true (initState 10) okResp 7 5 3 rfl rfl rfl

end FetchLoaderModel

namespace FetchLoaderModel

/-- C2 counterexample: firing the timeout watchdog on a fresh load leaves
`stats.aborted = true`, not `false` — the timeout handler calls
`abortInternal()` before `onTimeout` — refuting the claim that the
timeout path leaves `stats.aborted` unchanged. -/
theorem timeout_aborted_stays_false_cex :
    (run false true 0 [Event.timeout]).stats.aborted = true ∧
    (run false true 0 [Event.timeout]).log = [Emit.onTimeout] := by
  constructor <;> rfl

/-- C2 amended: when the timeout watchdog fires it sets
`stats.aborted = true` and aborts the controller (via `abortInternal`),
invokes `onTimeout` — not `onAbort` — and leaves every other stats field
(`trequest`, `tfirst`, `tload`, `loaded`, `total`) unmodified. -/
theorem timeout_sets_aborted_only (hp ha : Bool) (s : LState)
    (ht : s.timerArmed = true) (hc : s.controllerAborted = false) :
    (step hp ha s Event.timeout).stats.aborted = true ∧
    (step hp ha s Event.timeout).controllerAborted = true ∧
    (step hp ha s Event.timeout).timerArmed = false ∧
    (step hp ha s Event.timeout).log = s.log ++ [Emit.onTimeout] ∧
    (step hp ha s Event.timeout).stats.trequest = s.stats.trequest ∧
    (step hp ha s Event.timeout).stats.tfirst = s.stats.tfirst ∧
    (step hp ha s Event.timeout).stats.tload = s.stats.tload ∧
    (step hp ha s Event.timeout).stats.loaded = s.stats.loaded ∧
    (step hp ha s Event.timeout).stats.total = s.stats.total := by
  simp [step, ht, hc, timeoutHandler, abortInternal]

theorem timeout_sets_aborted_only_witness :
    (step false true (initState 3) Event.timeout).stats.aborted = true ∧
    (step false true (initState 3) Event.timeout).controllerAborted = true ∧
    (step false true (initState 3) Event.timeout).timerArmed = false ∧
    (step false true (initState 3) Event.timeout).log = [] ++ [Emit.onTimeout] ∧
    (step false true (initState 3) Event.timeout).stats.trequest
      = (initState 3).stats.trequest ∧
    (step false true (initState 3) Event.timeout).stats.tfirst
      = (initState 3).stats.tfirst ∧
    (step false true (initState 3) Event.timeout).stats.tload
      = (initState 3).stats.tload ∧
    (step false true (initState 3) Event.timeout).stats.loaded
      = (initState 3).stats.loaded ∧
    (step false true (initState 3) Event.timeout).stats.total
      = (initState 3).stats.total :=
  timeout_sets_aborted_only false true (initState 3) rfl rfl

theorem aborted_mono (hp ha : Bool) (s : LState) (e : Event)
    (h : s.stats.aborted = true) : (step hp ha s e).stats.aborted = true := by
  cases e <;>
    simp only [step, resolveHandler, catchHandler, successHandler, timeoutHandler,
      abortHandler, abortInternal] <;>
    (try split_ifs) <;> simp_all

theorem ctrl_mono (hp ha : Bool) (s : LState) (e : Event)
    (h : s.controllerAborted = true) : (step hp ha s e).controllerAborted = true := by
  cases e <;>
    simp only [step, resolveHandler, catchHandler, successHandler, timeoutHandler,
      abortHandler, abortInternal] <;>
    (try split_ifs) <;> simp_all

theorem timer_stays_off (hp ha : Bool) (s : LState) (e : Event)
    (h : s.timerArmed = false) : (step hp ha s e).timerArmed = false := by
  cases e <;>
    simp only [step, resolveHandler, catchHandler, successHandler, timeoutHandler,
      abortHandler, abortInternal] <;>
    (try split_ifs) <;> simp_all

theorem consumed_stable (hp ha : Bool) (s : LState) (e : Event)
    (h : s.phase = Phase.consumed) : (step hp ha s e).phase = Phase.consumed := by
  cases e <;>
    simp only [step, resolveHandler, catchHandler, successHandler, timeoutHandler,
      abortHandler, abortInternal] <;>
    (try split_ifs) <;> simp_all

end FetchLoaderModel

namespace FetchLoaderModel

theorem countTerminal_append (l t : List Emit) :
    countTerminal (l ++ t) = countTerminal l + countTerminal t := by
  simp [countTerminal, List.countP_append]

theorem countNotif_append (l t : List Emit) :
    countNotif (l ++ t) = countNotif l + countNotif t := by
  simp [countNotif, List.countP_append]

theorem countError_append (l t : List Emit) :
    countError (l ++ t) = countError l + countError t := by
  simp [countError, List.countP_append]

theorem countSuccess_append (l t : List Emit) :
    countSuccess (l ++ t) = countSuccess l + countSuccess t := by
  simp [countSuccess, List.countP_append]

theorem countTimeout_append (l t : List Emit) :
    countTimeout (l ++ t) = countTimeout l + countTimeout t := by
  simp [countTimeout, List.countP_append]

theorem settledLog_append (l t : List Emit) :
    settledLog (l ++ t) = (settledLog l || settledLog t) := by
  simp [settledLog, List.any_append]

/-- Once `stats.aborted` holds, no step ever emits `onError`: the `catch`
handler checks the flag before notifying, and every other emission is a
different callback. -/
theorem error_frozen_step (hp ha : Bool) (s : LState) (e : Event)
    (h : s.stats.aborted = true) :
    countError (step hp ha s e).log = countError s.log := by
  cases e <;>
    simp only [step, resolveHandler, catchHandler, successHandler, timeoutHandler,
      abortHandler, abortInternal] <;>
    (try split_ifs) <;>
    simp_all [countError_append, countError, List.countP_cons, isError]

theorem error_frozen_run (hp ha : Bool) (s : LState) (post : List Event)
    (h : s.stats.aborted = true) :
    countError (post.foldl (step hp ha) s).log = countError s.log := by
  induction post generalizing s with
  | nil => rfl
  | cons e rest ih =>
    rw [List.foldl_cons, ih (step hp ha s e) (aborted_mono hp ha s e h)]
    exact error_frozen_step hp ha s e h

/-- Once the promise chain has finished, no step ever emits `onSuccess`
again: the success handler is guarded by the body phase. -/
theorem success_frozen_step (hp ha : Bool) (s : LState) (e : Event)
    (h : s.phase = Phase.consumed) :
    countSuccess (step hp ha s e).log = countSuccess s.log := by
  cases e <;>
    simp only [step, resolveHandler, catchHandler, successHandler, timeoutHandler,
      abortHandler, abortInternal] <;>
    (try split_ifs) <;>
    simp_all [countSuccess_append, countSuccess, List.countP_cons, isSuccess]

theorem success_frozen_run (hp ha : Bool) (s : LState) (post : List Event)
    (h : s.phase = Phase.consumed) :
    countSuccess (post.foldl (step hp ha) s).log = countSuccess s.log := by
  induction post generalizing s with
  | nil => rfl
  | cons e rest ih =>
    rw [List.foldl_cons, ih (step hp ha s e) (consumed_stable hp ha s e h)]
    exact success_frozen_step hp ha s e h

/-- While the timer is disarmed or the controller aborted, no step emits
`onTimeout`: the timer event is guarded by `armed ∧ ¬aborted`, and the
pending abort-induced rejection is delivered before any timer macrotask. -/
theorem timeout_frozen_step (hp ha : Bool) (s : LState) (e : Event)
    (h : s.timerArmed = false ∨ s.controllerAborted = true) :
    countTimeout (step hp ha s e).log = countTimeout s.log := by
  cases e <;>
    simp only [step, resolveHandler, catchHandler, successHandler, timeoutHandler,
      abortHandler, abortInternal] <;>
    (try split_ifs) <;>
    rcases h with h | h <;>
    simp_all [countTimeout_append, countTimeout, List.countP_cons, isTimeoutEmit]

theorem timeout_frozen_run (hp ha : Bool) (s : LState) (post : List Event)
    (h : s.timerArmed = false ∨ s.controllerAborted = true) :
    countTimeout (post.foldl (step hp ha) s).log = countTimeout s.log := by
  induction post generalizing s with
  | nil => rfl
  | cons e rest ih =>
    have hnext : (step hp ha s e).timerArmed = false ∨
        (step hp ha s e).controllerAborted = true := by
      rcases h with h | h
      · exact Or.inl (timer_stays_off hp ha s e h)
      · exact Or.inr (ctrl_mono hp ha s e h)
    rw [List.foldl_cons, ih (step hp ha s e) hnext]
    exact timeout_frozen_step hp ha s e h

/-- Steps only append to the callback log. -/
theorem log_mem_mono (hp ha : Bool) (s : LState) (e : Event) (x : Emit)
    (h : x ∈ s.log) : x ∈ (step hp ha s e).log := by
  cases e <;>
    simp only [step, resolveHandler, catchHandler, successHandler, timeoutHandler,
      abortHandler, abortInternal] <;>
    (try split_ifs) <;>
    simp_all

theorem log_mem_mono_run (hp ha : Bool) (s : LState) (post : List Event) (x : Emit)
    (h : x ∈ s.log) : x ∈ (post.foldl (step hp ha) s).log := by
  induction post generalizing s with
  | nil => exact h
  | cons e rest ih =>
    rw [List.foldl_cons]
    exact ih (step hp ha s e) (log_mem_mono hp ha s e x h)

end FetchLoaderModel

namespace FetchLoaderModel

theorem countTerminal_singleton (x : Emit) :
    countTerminal [x] = if isTerminal x then 1 else 0 := by
  simp [countTerminal, List.countP_cons]

theorem countNotif_singleton (x : Emit) :
    countNotif [x] = if isNotif x then 1 else 0 := by
  simp [countNotif, List.countP_cons]

theorem countError_singleton (x : Emit) :
    countError [x] = if isError x then 1 else 0 := by
  simp [countError, List.countP_cons]

theorem countSuccess_singleton (x : Emit) :
    countSuccess [x] = if isSuccess x then 1 else 0 := by
  simp [countSuccess, List.countP_cons]

theorem countTimeout_singleton (x : Emit) :
    countTimeout [x] = if isTimeoutEmit x then 1 else 0 := by
  simp [countTimeout, List.countP_cons]

/-- Inductive invariant behind C1: at most one terminal-family callback
ever fires, and once one has fired the timer is disarmed and either the
chain is finished or the aborted flag (set by the timeout path) guards
the `catch` handler. -/
def TermInv (s : LState) : Prop :=
  countTerminal s.log ≤ 1 ∧
  (1 ≤ countTerminal s.log →
    s.timerArmed = false ∧
      (s.phase = Phase.consumed ∨
        (s.stats.aborted = true ∧ s.controllerAborted = true)))

theorem termInv_step (hp ha : Bool) (s : LState) (e : Event) (h : TermInv s) :
    TermInv (step hp ha s e) := by
  obtain ⟨h1, h2⟩ := h
  cases e with
  | resolve r now =>
    simp only [step]
    split_ifs with hg
    · obtain ⟨hph, hc⟩ := hg
      have h0 : countTerminal s.log = 0 := by
        by_contra hne
        rcases (h2 (by omega)).2 with hcons | habc
        · simp [hph] at hcons
        · simp [hc] at habc
      simp only [resolveHandler, catchHandler]
      split_ifs with hok hab hmsg
      · refine ⟨by simp [h0], fun hge => ?_⟩
        simp [h0] at hge
      · exact ⟨by simp [h0], fun _ => ⟨rfl, Or.inl rfl⟩⟩
      · exact ⟨by simp [countTerminal_append, countTerminal_singleton, isTerminal, h0],
          fun _ => ⟨rfl, Or.inl rfl⟩⟩
      · exact ⟨by simp [countTerminal_append, countTerminal_singleton, isTerminal, h0],
          fun _ => ⟨rfl, Or.inl rfl⟩⟩
    · exact ⟨h1, h2⟩
  | rejectT code msg =>
    simp only [step]
    split_ifs with hph
    · simp only [catchHandler]
      split_ifs with hab
      · exact ⟨h1, fun _ => ⟨rfl, Or.inl rfl⟩⟩
      · have h0 : countTerminal s.log = 0 := by
          by_contra hne
          rcases (h2 (by omega)).2 with hcons | habc
          · simp [hph] at hcons
          · simp [habc.1] at hab
        exact ⟨by simp [countTerminal_append, countTerminal_singleton, isTerminal, h0],
          fun _ => ⟨rfl, Or.inl rfl⟩⟩
    · exact ⟨h1, h2⟩
  | bodyDone len now =>
    simp only [step]
    split_ifs with hg
    · obtain ⟨hph, hc⟩ := hg
      have h0 : countTerminal s.log = 0 := by
        by_contra hne
        rcases (h2 (by omega)).2 with hcons | habc
        · simp [hph] at hcons
        · simp [hc] at habc
      simp only [successHandler]
      exact ⟨by simp [countTerminal_append, countTerminal_singleton, isTerminal, h0],
        fun _ => ⟨rfl, Or.inl rfl⟩⟩
    · exact ⟨h1, h2⟩
  | bodyFail code msg =>
    simp only [step]
    split_ifs with hph
    · simp only [catchHandler]
      split_ifs with hab
      · exact ⟨h1, fun _ => ⟨rfl, Or.inl rfl⟩⟩
      · have h0 : countTerminal s.log = 0 := by
          by_contra hne
          rcases (h2 (by omega)).2 with hcons | habc
          · simp [hph] at hcons
          · simp [habc.1] at hab
        exact ⟨by simp [countTerminal_append, countTerminal_singleton, isTerminal, h0],
          fun _ => ⟨rfl, Or.inl rfl⟩⟩
    · exact ⟨h1, h2⟩
  | chunk len =>
    simp only [step]
    split_ifs with hg
    · have heq : countTerminal (s.log ++ [Emit.onProgress (s.stats.loaded + len)])
          = countTerminal s.log := by
        simp [countTerminal_append, countTerminal_singleton, isTerminal]
      refine ⟨?_, fun hge => ?_⟩
      · simpa [heq] using h1
      · simp only [LState.log] at hge
        rw [heq] at hge
        exact h2 hge
    · exact ⟨h1, h2⟩
  | timeout =>
    simp only [step]
    split_ifs with hg
    · obtain ⟨ht, hc⟩ := hg
      have h0 : countTerminal s.log = 0 := by
        by_contra hne
        have := (h2 (by omega)).1
        simp [ht] at this
      simp only [timeoutHandler, abortInternal]
      exact ⟨by simp [countTerminal_append, countTerminal_singleton, isTerminal, h0],
        fun _ => ⟨rfl, Or.inr ⟨rfl, rfl⟩⟩⟩
    · exact ⟨h1, h2⟩
  | abortCall =>
    simp only [step, abortHandler, abortInternal]
    split_ifs with hha
    · have heq : countTerminal (s.log ++ [Emit.onAbort]) = countTerminal s.log := by
        simp [countTerminal_append, countTerminal_singleton, isTerminal]
      refine ⟨?_, fun hge => ?_⟩
      · simpa [heq] using h1
      · simp only [LState.log] at hge
        rw [heq] at hge
        exact ⟨(h2 hge).1, Or.inr ⟨rfl, rfl⟩⟩
    · exact ⟨h1, fun hge => ⟨(h2 hge).1, Or.inr ⟨rfl, rfl⟩⟩⟩
  | destroyCall =>
    simp only [step, abortInternal]
    exact ⟨h1, fun hge => ⟨(h2 hge).1, Or.inr ⟨rfl, rfl⟩⟩⟩

theorem termInv_run (hp ha : Bool) (s : LState) (post : List Event) (h : TermInv s) :
    TermInv (post.foldl (step hp ha) s) := by
  induction post generalizing s with
  | nil => exact h
  | cons e rest ih =>
    rw [List.foldl_cons]
    exact ih (step hp ha s e) (termInv_step hp ha s e h)

end FetchLoaderModel

namespace FetchLoaderModel

/-- Inductive invariant behind the never-zero half of C1 (with `onAbort`
registered and no `destroy` teardown): whenever the aborted flag is set
or the chain has finished, some notification has already been delivered. -/
def NotifInv (s : LState) : Prop :=
  (s.stats.aborted = true → 1 ≤ countNotif s.log) ∧
  (s.phase = Phase.consumed → 1 ≤ countNotif s.log)

theorem notifInv_step (hp : Bool) (s : LState) (e : Event)
    (hd : e ≠ Event.destroyCall) (h : NotifInv s) :
    NotifInv (step hp true s e) := by
  obtain ⟨h1, h2⟩ := h
  cases e with
  | resolve r now =>
    simp only [step]
    split_ifs with hg
    · simp only [resolveHandler, catchHandler]
      split_ifs with hok hab hmsg
      · exact ⟨fun habo => h1 habo, fun hco => by simp at hco⟩
      · exact ⟨fun habo => h1 hab, fun _ => h1 hab⟩
      · refine ⟨fun _ => ?_, fun _ => ?_⟩ <;>
          simp [countNotif_append, countNotif_singleton, isNotif]
      · refine ⟨fun _ => ?_, fun _ => ?_⟩ <;>
          simp [countNotif_append, countNotif_singleton, isNotif]
    · exact ⟨h1, h2⟩
  | rejectT code msg =>
    simp only [step]
    split_ifs with hph
    · simp only [catchHandler]
      split_ifs with hab
      · exact ⟨fun _ => h1 hab, fun _ => h1 hab⟩
      · refine ⟨fun _ => ?_, fun _ => ?_⟩ <;>
          simp [countNotif_append, countNotif_singleton, isNotif]
    · exact ⟨h1, h2⟩
  | bodyDone len now =>
    simp only [step]
    split_ifs with hg
    · simp only [successHandler]
      refine ⟨fun _ => ?_, fun _ => ?_⟩ <;>
        simp [countNotif_append, countNotif_singleton, isNotif]
    · exact ⟨h1, h2⟩
  | bodyFail code msg =>
    simp only [step]
    split_ifs with hph
    · simp only [catchHandler]
      split_ifs with hab
      · exact ⟨fun _ => h1 hab, fun _ => h1 hab⟩
      · refine ⟨fun _ => ?_, fun _ => ?_⟩ <;>
          simp [countNotif_append, countNotif_singleton, isNotif]
    · exact ⟨h1, h2⟩
  | chunk len =>
    simp only [step]
    split_ifs with hg
    · have heq : countNotif (s.log ++ [Emit.onProgress (s.stats.loaded + len)])
          = countNotif s.log := by
        simp [countNotif_append, countNotif_singleton, isNotif]
      refine ⟨fun habo => ?_, fun hco => ?_⟩
      · simp only [LState.log]
        rw [heq]
        exact h1 habo
      · simp only [LState.log]
        rw [heq]
        exact h2 hco
    · exact ⟨h1, h2⟩
  | timeout =>
    simp only [step]
    split_ifs with hg
    · simp only [timeoutHandler, abortInternal]
      refine ⟨fun _ => ?_, fun _ => ?_⟩ <;>
        simp [countNotif_append, countNotif_singleton, isNotif]
    · exact ⟨h1, h2⟩
  | abortCall =>
    simp only [step, abortHandler, abortInternal, if_pos]
    refine ⟨fun _ => ?_, fun _ => ?_⟩ <;>
      simp [countNotif_append, countNotif_singleton, isNotif]
  | destroyCall => exact absurd rfl hd

theorem notifInv_run (hp : Bool) (s : LState) (post : List Event)
    (hd : ∀ e ∈ post, e ≠ Event.destroyCall) (h : NotifInv s) :
    NotifInv (post.foldl (step hp true) s) := by
  induction post generalizing s with
  | nil => exact h
  | cons e rest ih =>
    rw [List.foldl_cons]
    exact ih (step hp true s e) (fun x hx => hd x (List.mem_cons_of_mem e hx))
      (notifInv_step hp s e (hd e (List.mem_cons_self e rest)) h)

/-- Inductive invariant behind C7: a finished chain has a cleared timer,
and once any notification has been delivered the timer is cleared or the
controller is aborted (so a pending rejection will clear it before the
timer can fire). -/
def TimerInv (s : LState) : Prop :=
  (s.phase = Phase.consumed → s.timerArmed = false) ∧
  (settledLog s.log = true → (s.timerArmed = false ∨ s.controllerAborted = true))

theorem timerInv_step (hp ha : Bool) (s : LState) (e : Event) (h : TimerInv s) :
    TimerInv (step hp ha s e) := by
  obtain ⟨h1, h2⟩ := h
  cases e with
  | resolve r now =>
    simp only [step]
    split_ifs with hg
    · simp only [resolveHandler, catchHandler]
      split_ifs with hok hab hmsg
      · refine ⟨fun hco => by simp at hco, fun hst => ?_⟩
        simp only [LState.log, LState.timerArmed, LState.controllerAborted] at hst ⊢
        exact h2 hst
      · exact ⟨fun _ => rfl, fun _ => Or.inl rfl⟩
      · exact ⟨fun _ => rfl, fun _ => Or.inl rfl⟩
      · exact ⟨fun _ => rfl, fun _ => Or.inl rfl⟩
    · exact ⟨h1, h2⟩
  | rejectT code msg =>
    simp only [step]
    split_ifs with hph
    · simp only [catchHandler]
      split_ifs with hab
      · exact ⟨fun _ => rfl, fun _ => Or.inl rfl⟩
      · exact ⟨fun _ => rfl, fun _ => Or.inl rfl⟩
    · exact ⟨h1, h2⟩
  | bodyDone len now =>
    simp only [step]
    split_ifs with hg
    · simp only [successHandler]
      exact ⟨fun _ => rfl, fun _ => Or.inl rfl⟩
    · exact ⟨h1, h2⟩
  | bodyFail code msg =>
    simp only [step]
    split_ifs with hph
    · simp only [catchHandler]
      split_ifs with hab
      · exact ⟨fun _ => rfl, fun _ => Or.inl rfl⟩
      · exact ⟨fun _ => rfl, fun _ => Or.inl rfl⟩
    · exact ⟨h1, h2⟩
  | chunk len =>
    simp only [step]
    split_ifs with hg
    · have heq : settledLog (s.log ++ [Emit.onProgress (s.stats.loaded + len)])
          = settledLog s.log := by
        simp [settledLog_append, settledLog, isNotif]
      refine ⟨fun hco => h1 hco, fun hst => ?_⟩
      simp only [LState.log] at hst
      rw [heq] at hst
      exact h2 hst
    · exact ⟨h1, h2⟩
  | timeout =>
    simp only [step]
    split_ifs with hg
    · simp only [timeoutHandler, abortInternal]
      exact ⟨fun _ => rfl, fun _ => Or.inl rfl⟩
    · exact ⟨h1, h2⟩
  | abortCall =>
    simp only [step, abortHandler, abortInternal]
    split_ifs with hha
    · exact ⟨fun hco => h1 hco, fun _ => Or.inr rfl⟩
    · exact ⟨fun hco => h1 hco, fun _ => Or.inr rfl⟩
  | destroyCall =>
    simp only [step, abortInternal]
    exact ⟨fun hco => h1 hco, fun _ => Or.inr rfl⟩

theorem timerInv_run (hp ha : Bool) (s : LState) (post : List Event) (h : TimerInv s) :
    TimerInv (post.foldl (step hp ha) s) := by
  induction post generalizing s with
  | nil => exact h
  | cons e rest ih =>
    rw [List.foldl_cons]
    exact ih (step hp ha s e) (timerInv_step hp ha s e h)

/-- Once settled (and so, by `TimerInv`, disarmed-or-aborted), the
timeout count is frozen. -/
theorem settled_timeout_frozen (hp ha : Bool) (s : LState) (post : List Event)
    (hinv : TimerInv s) (hst : settledLog s.log = true) :
    countTimeout (post.foldl (step hp ha) s).log = countTimeout s.log :=
  timeout_frozen_run hp ha s post (hinv.2 hst)

end FetchLoaderModel

namespace FetchLoaderModel

/-- C1: on every schedule of one load (with `onAbort` registered), at
most one terminal-family callback (`onSuccess`/`onError`/`onTimeout`)
fires; when the promise chain finishes without a `destroy` teardown at
least one notification (terminal or `onAbort`) has fired; and when
`abort()` occurs, `onAbort` fires and no later transport rejection or
HTTP error ever invokes `onError` (the `catch` handler is gated on
`stats.aborted`). -/
theorem single_terminal_notification (hp : Bool) (t0 : Nat) (sched : List Event) :
    countTerminal (run hp true t0 sched).log ≤ 1 ∧
    ((∀ e ∈ sched, e ≠ Event.destroyCall) →
      (run hp true t0 sched).phase = Phase.consumed →
      1 ≤ countNotif (run hp true t0 sched).log) ∧
    (∀ pre post, sched = pre ++ Event.abortCall :: post →
      Emit.onAbort ∈ (run hp true t0 sched).log ∧
      countError (run hp true t0 sched).log = countError (run hp true t0 pre).log) := by
  have hTermInit : TermInv (initState t0) := by
    constructor
    · simp [initState, countTerminal]
    · intro hge
      simp [initState, countTerminal] at hge
  have hNotifInit : NotifInv (initState t0) := by
    constructor
    · intro habo
      simp [initState, LoadStats.init] at habo
    · intro hco
      simp [initState] at hco
  refine ⟨(termInv_run hp true (initState t0) sched hTermInit).1,
    fun hd hco => (notifInv_run hp (initState t0) sched hd hNotifInit).2 hco,
    fun pre post hs => ?_⟩
  subst hs
  have hsplit : run hp true t0 (pre ++ Event.abortCall :: post)
      = post.foldl (step hp true)
          (step hp true (run hp true t0 pre) Event.abortCall) := by
    simp [run, List.foldl_append]
  have hlog : (step hp true (run hp true t0 pre) Event.abortCall).log
      = (run hp true t0 pre).log ++ [Emit.onAbort] := by
    simp [step, abortHandler, abortInternal]
  have habo : (step hp true (run hp true t0 pre) Event.abortCall).stats.aborted = true := by
    simp [step, abortHandler, abortInternal]
  constructor
  · rw [hsplit]
    refine log_mem_mono_run hp true _ post Emit.onAbort ?_
    rw [hlog]
    simp
  · rw [hsplit, error_frozen_run hp true _ post habo, hlog]
    simp [countError_append, countError_singleton, isError]

theorem single_terminal_notification_witness :
    countTerminal (run false true 0
      [Event.abortCall, Event.rejectT none "AbortError"]).log ≤ 1 ∧
    Emit.onAbort ∈ (run false true 0
      [Event.abortCall, Event.rejectT none "AbortError"]).log ∧
    countError (run false true 0 [Event.abortCall, Event.rejectT none "AbortError"]).log
      = countError (run false true 0 ([] : List Event)).log ∧
    1 ≤ countNotif (run false true 0
      [Event.abortCall, Event.rejectT none "AbortError"]).log := by
  have h := single_terminal_notification false 0
    [Event.abortCall, Event.rejectT none "AbortError"]
  have h3 := h.2.2 [] [Event.rejectT none "AbortError"] rfl
  exact ⟨h.1, h3.1, h3.2, h.2.1 (by decide) rfl⟩

/-- C6: a response with a non-success status on a non-aborted load makes
the `catch` handler fire `onError` with code the HTTP status and text the
status text, or "fetch, bad network response" when the status text is
empty; `onSuccess` never fires for that load afterwards. -/
theorem http_error_reported (hp ha : Bool) (s : LState) (r : Response) (now : Nat)
    (hph : s.phase = Phase.pending) (hc : s.controllerAborted = false)
    (hab : s.stats.aborted = false) (hok : r.ok = false) :
    (step hp ha s (Event.resolve r now)).log
      = s.log ++ [Emit.onError (some r.status)
          (if r.statusText = "" then "fetch, bad network response"
           else r.statusText)] ∧
    ∀ post : List Event,
      countSuccess (post.foldl (step hp ha) (step hp ha s (Event.resolve r now))).log
        = countSuccess s.log := by
  constructor
  · simp [step, hph, hc, resolveHandler, catchHandler, hab, hok]
  · intro post
    have hcons : (step hp ha s (Event.resolve r now)).phase = Phase.consumed := by
      simp [step, hph, hc, resolveHandler, catchHandler, hab, hok]
    rw [success_frozen_run hp ha _ post hcons]
    simp [step, hph, hc, resolveHandler, catchHandler, hab, hok,
      countSuccess_append, countSuccess_singleton, isSuccess]

theorem http_error_reported_witness :
    (step false true (initState 0) (Event.resolve notFoundResp 1)).log
      = (initState 0).log ++ [Emit.onError (some notFoundResp.status)
          (if notFoundResp.statusText = "" then "fetch, bad network response"
           else notFoundResp.statusText)] ∧
    countSuccess ([Event.timeout].foldl (step false true)
        (step false true (initState 0) (Event.resolve notFoundResp 1))).log
      = countSuccess (initState 0).log := by
  have h := http_error_reported false true (initState 0) notFoundResp 1 rfl rfl rfl rfl
  exact ⟨h.1, h.2 [Event.timeout]⟩

/-- C7 counterexample: the abort exit path does not release the timer.
After `abort()` on a fresh load the load has settled (`onAbort`
delivered) yet the timeout timer is still armed — `abortInternal` never
calls `clearTimeout`; only the success and catch handlers do. -/
theorem timer_cleared_every_exit_cex :
    settledLog (run false true 0 [Event.abortCall]).log = true ∧
    (run false true 0 [Event.abortCall]).timerArmed = true :=
  ⟨rfl, rfl⟩

/-- C7 amended: the timer is cleared by the success and catch handlers
and spent when it fires; the abort/destroy path leaves it armed, but it
is then cleared when the abort-induced rejection reaches the `catch`
handler, and since that pending rejection is delivered before any timer
macrotask, no timeout callback fires after the load has settled by any
path. -/
theorem stale_timeout_never_fires (hp ha : Bool) (t0 : Nat) (pre post : List Event) :
    ((run hp ha t0 (pre ++ post)).phase = Phase.consumed →
      (run hp ha t0 (pre ++ post)).timerArmed = false) ∧
    (settledLog (run hp ha t0 pre).log = true →
      countTimeout (run hp ha t0 (pre ++ post)).log
        = countTimeout (run hp ha t0 pre).log) := by
  have hInit : TimerInv (initState t0) := by
    constructor
    · intro hco
      simp [initState] at hco
    · intro hst
      simp [initState, settledLog] at hst
  constructor
  · exact fun hco => (timerInv_run hp ha (initState t0) (pre ++ post) hInit).1 hco
  · intro hst
    have hsplit : run hp ha t0 (pre ++ post)
        = post.foldl (step hp ha) (run hp ha t0 pre) := by
      simp [run, List.foldl_append]
    rw [hsplit]
    exact settled_timeout_frozen hp ha _ post
      (timerInv_run hp ha (initState t0) pre hInit) hst

theorem stale_timeout_never_fires_witness :
    ((run false true 0 ([Event.abortCall]
        ++ [Event.rejectT none "AbortError", Event.timeout])).timerArmed = false) ∧
    (countTimeout (run false true 0 ([Event.abortCall]
        ++ [Event.rejectT none "AbortError", Event.timeout])).log
      = countTimeout (run false true 0 [Event.abortCall]).log) := by
  have h := stale_timeout_never_fires false true 0 [Event.abortCall]
    [Event.rejectT none "AbortError", Event.timeout]
  exact ⟨h.1 rfl, h.2 rfl⟩

/-- C8 counterexample: `abort()` is not a no-op once the load has settled
and is not idempotent in its notification: after a successful load, two
further `abort()` calls deliver `onAbort` twice. -/
theorem abort_noop_after_settle_cex :
    countSuccess (run false true 0 [Event.resolve okResp 1, Event.bodyDone 5 2]).log = 1 ∧
    (run false true 0 [Event.resolve okResp 1, Event.bodyDone 5 2, Event.abortCall,
        Event.abortCall]).log
      = [Emit.onSuccess "https://x/seg.ts" 5, Emit.onAbort, Emit.onAbort] :=
  ⟨rfl, rfl⟩

/-- C8 amended: during or after a load, `abort()` and `destroy()` never
throw (they are total on every loader state) and may be called repeatedly
at any point; `destroy()` is idempotent and emits nothing; but `abort()`
is not a no-op after settlement: every call re-invokes `onAbort` when it
is registered (and emits nothing when it is not), while always setting
`stats.aborted`. -/
theorem abort_destroy_total_behavior (hp ha : Bool) (s : LState) :
    step hp ha (step hp ha s Event.destroyCall) Event.destroyCall
      = step hp ha s Event.destroyCall ∧
    (step hp ha s Event.destroyCall).log = s.log ∧
    (step hp true s Event.abortCall).log = s.log ++ [Emit.onAbort] ∧
    (step hp false s Event.abortCall).log = s.log ∧
    (step hp ha s Event.abortCall).stats.aborted = true ∧
    (step hp ha s Event.destroyCall).stats.aborted = true := by
  refine ⟨?_, ?_, ?_, ?_, ?_, ?_⟩ <;> cases ha <;>
    simp [step, abortHandler, abortInternal]

end FetchLoaderModel
